import Mathlib

/-!
# Verification of the chat subsystem of `connect-us` (`src/services/chatService.ts`)

Shallow embedding of the chat service:

* the Firestore state visible to this subsystem is a `Store`: the `chatRooms`
  and `messages` collections, each an ordered list of `(documentId, document)`
  pairs (queries preserve store order, as Firestore snapshots do for a fixed
  backend order);
* `serverTimestamp()` values are modelled as `Nat` instants supplied to each
  operation as an explicit `now` argument; store-assigned document ids are
  supplied as an explicit `freshId` argument;
* optional JavaScript object fields are `Option String`; JavaScript truthiness
  of a string field (`undefined` and `""` are falsy) is the `truthy` predicate;
* `Array.prototype.sort(cmp)` is a stable sort by the comparator, modelled by
  `List.mergeSort` with `le a b := cmp a b ≤ 0`;
* the snapshot listeners registered by `subscribeToMessages` and
  `subscribeToUserChats` are modelled as pure functions from one delivered
  snapshot (plus the state of the `users`/`posts` collections and an oracle
  saying which asynchronous lookups fail) to the list of callback invocations
  performed for that snapshot, in order;
* a rejected promise of an enrichment lookup is modelled by the failure oracle
  returning `true` for the looked-up user id.
-/

namespace ConnectUs

/-- JavaScript truthiness for an optional string field:
`undefined` and `""` are falsy, every other string is truthy. -/
def truthy : Option String → Bool
  | none => false
  | some s => s != ""

/-- JavaScript `a || b` on optional string values (`null`/`undefined` mapped to
`none`): keeps `a` if it is a truthy string, otherwise takes `b`. -/
def jsOr (a b : Option String) : Option String :=
  match a with
  | some s => if s ≠ "" then some s else b
  | none => b

/-- JavaScript `a || ""` on an optional string: `none` and `some ""` give `""`. -/
def jsOrEmpty (a : Option String) : String :=
  a.getD ""

/-- Model of JavaScript `String.prototype.trim`: strips leading and trailing
whitespace.  (Defined over the character list so that concrete instances
evaluate inside the kernel.) -/
def jsTrim (s : String) : String :=
  String.mk
    (((s.data.dropWhile Char.isWhitespace).reverse.dropWhile
      Char.isWhitespace).reverse)

/-- Argument shape of `getUserDisplayName` in chatService.ts:48:
`{ displayName?: string; email?: string }`. -/
structure UserData where
  displayName : Option String := none
  email : Option String := none
deriving DecidableEq

/-- `getUserDisplayName` (chatService.ts:48-64).  The JS guard
`userData.displayName && userData.displayName.trim() !== ""` is equivalent to
`jsTrim displayName ≠ ""` because `jsTrim "" = ""`. -/
def getUserDisplayName (userData : UserData) : String :=
  if jsTrim (userData.displayName.getD "") ≠ "" then userData.displayName.getD ""
  else if truthy userData.email then userData.email.getD ""
  else "Unknown User"

/-- One value of the `participantDetails` map stored on a chat-room document.
All three fields are treated as optional on the read side. -/
structure PartDetails where
  displayName : Option String := none
  email : Option String := none
  photoURL : Option String := none
deriving DecidableEq

/-- View the participant snapshot through the `{displayName?, email?}` shape
expected by `getUserDisplayName`. -/
def PartDetails.toUserData (d : PartDetails) : UserData :=
  { displayName := d.displayName, email := d.email }

/-- A document of the `chatRooms` collection (external shape, spec §6). -/
structure RoomDoc where
  participants : List String
  createdAt : Option Nat := none
  lastMessage : String := ""
  lastMessageTime : Option Nat := none
  participantDetails : List (String × PartDetails) := []
deriving DecidableEq

/-- The `user` field of a message (`{ _id, name, avatar? }` of
react-native-gifted-chat's `IMessage`); `_id` is rendered `uid`. -/
structure MsgUser where
  uid : String
  name : Option String := none
  avatar : Option String := none
deriving DecidableEq

/-- A document of the `messages` collection (external shape, spec §6). -/
structure MessageDoc where
  text : String
  createdAt : Option Nat := none
  user : MsgUser
  chatRoomId : String
deriving DecidableEq

/-- A client-side `Message` (types/chat.ts): the mapped form delivered by
`subscribeToMessages`; `_id` is rendered `msgId`, `createdAt` is the decoded
timestamp. -/
structure Message where
  msgId : String
  text : String
  createdAt : Nat
  user : MsgUser
  chatRoomId : String
deriving DecidableEq

/-- A document of the external `users` collection, with the alternate name
fields (`userName`, `name`) probed by the enrichment pass. -/
structure ProfileDoc where
  displayName : Option String := none
  userName : Option String := none
  name : Option String := none
  email : Option String := none
  photoURL : Option String := none
deriving DecidableEq

/-- A document of the `posts` collection, restricted to the fields used by the
post-author name fallback. -/
structure PostDoc where
  userId : String
  createdAt : Nat
  userName : Option String := none
deriving DecidableEq

/-- Profile argument of `getOrCreateChatRoom`
(`{ displayName?: string; photoURL?: string; email?: string }`). -/
structure ProfileInput where
  displayName : Option String := none
  photoURL : Option String := none
  email : Option String := none
deriving DecidableEq

/-- View a profile argument through the `{displayName?, email?}` shape expected
by `getUserDisplayName` (JS passes the same object, structurally typed). -/
def ProfileInput.toUserData (u : ProfileInput) : UserData :=
  { displayName := u.displayName, email := u.email }

/-- The Firestore state seen by the chat subsystem. -/
structure Store where
  chatRooms : List (String × RoomDoc) := []
  messages : List (String × MessageDoc) := []
deriving DecidableEq

/-- `getOrCreateChatRoom` (chatService.ts:73-138).
Queries rooms whose `participants` contains `userId1`, scans for one that also
includes `userId2`; returns its id and leaves the store untouched, otherwise
appends a freshly-created room document and returns `freshId`. -/
def getOrCreateChatRoom (s : Store) (userId1 userId2 : String)
    (user1Data user2Data : ProfileInput) (freshId : String) (now : Nat) :
    String × Store :=
  let querySnapshot := s.chatRooms.filter (fun d => d.2.participants.contains userId1)
  match querySnapshot.find? (fun d => d.2.participants.contains userId2) with
  | some existingRoom => (existingRoom.1, s)
  | none =>
    let newChatRoom : RoomDoc :=
      { participants := [userId1, userId2]
        createdAt := some now
        lastMessage := ""
        lastMessageTime := none
        participantDetails :=
          [(userId1,
            { displayName := some (getUserDisplayName user1Data.toUserData)
              email := some (jsOrEmpty user1Data.email)
              photoURL := some (jsOrEmpty user1Data.photoURL) }),
           (userId2,
            { displayName := some (getUserDisplayName user2Data.toUserData)
              email := some (jsOrEmpty user2Data.email)
              photoURL := some (jsOrEmpty user2Data.photoURL) })] }
    (freshId, { s with chatRooms := s.chatRooms ++ [(freshId, newChatRoom)] })

/-- `sendMessage` (chatService.ts:145-179).
First `addDoc` appends the message document, then `updateDoc` refreshes the
room's `lastMessage`/`lastMessageTime`; `updateDoc` on a missing document
rejects, and the rejection is re-thrown to the caller (the message document is
already persisted at that point).  Result: the new store plus the promise
outcome. -/
def sendMessage (s : Store) (chatRoomId : String) (text : String)
    (user : MsgUser) (freshId : String) (now : Nat) :
    Store × Except String Unit :=
  let messageData : MessageDoc :=
    { text := text, createdAt := some now, user := user, chatRoomId := chatRoomId }
  let s1 : Store := { s with messages := s.messages ++ [(freshId, messageData)] }
  if s1.chatRooms.any (fun r => r.1 == chatRoomId) then
    ({ s1 with chatRooms := s1.chatRooms.map (fun r =>
        if r.1 = chatRoomId then
          (r.1, { r.2 with lastMessage := text, lastMessageTime := some now })
        else r) },
     .ok ())
  else
    (s1, .error "updateDoc: no document to update")

/-- The document-to-`Message` mapping of the `subscribeToMessages` snapshot
handler (chatService.ts:209-220); `data.createdAt?.toDate() || new Date()`
falls back to the current instant `now` for a pending server timestamp. -/
def toMessage (now : Nat) (d : String × MessageDoc) : Message :=
  { msgId := d.1
    text := d.2.text
    createdAt := d.2.createdAt.getD now
    user := d.2.user
    chatRoomId := d.2.chatRoomId }

/-- The JS comparator `(a, b) => bTime - aTime` of chatService.ts:225-229 as a
boolean "comes no later than" relation: `cmp a b ≤ 0` iff `b.createdAt ≤
a.createdAt`. -/
def messageLe (a b : Message) : Bool :=
  decide (b.createdAt ≤ a.createdAt)

/-- The snapshot handler of `subscribeToMessages` (chatService.ts:206-234):
maps the matching documents to `Message`s and sorts them client-side by
`createdAt` descending with the stable `Array.prototype.sort`. -/
def subscribeToMessagesSnapshot (now : Nat) (docs : List (String × MessageDoc)) :
    List Message :=
  let messages := docs.map (toMessage now)
  messages.mergeSort messageLe

/-- A `UserChat` summary entry (types/chat.ts). -/
structure UserChat where
  chatRoomId : String
  otherUserId : String
  otherUserName : String
  otherUserPhoto : Option String := none
  lastMessage : String := ""
  lastMessageTime : Option Nat := none
deriving DecidableEq

/-- The comparator of `sortChatsByTime` (chatService.ts:25-44): entries without
a `lastMessageTime` order after entries with one, otherwise newer first. -/
def chatCompare (a b : UserChat) : Int :=
  match a.lastMessageTime, b.lastMessageTime with
  | none, none => 0
  | none, some _ => 1
  | some _, none => -1
  | some aTime, some bTime => (bTime : Int) - (aTime : Int)

/-- The comparator of `sortChatsByTime` as a boolean "comes no later than"
relation: `chatCompare a b ≤ 0`. -/
def chatLe (a b : UserChat) : Bool :=
  decide (chatCompare a b ≤ 0)

/-- `sortChatsByTime` (chatService.ts:25-44): stable sort by `chatCompare`. -/
def sortChatsByTime (chats : List UserChat) : List UserChat :=
  chats.mergeSort chatLe

/-- The room-to-`UserChat` mapping of the `subscribeToUserChats` snapshot
handler (chatService.ts:269-290): `otherUserId` is the first participant id
differing from the viewer (or `""`), details come from the denormalized
`participantDetails`, the name from `getUserDisplayName`. -/
def toUserChat (userId : String) (d : String × RoomDoc) : UserChat :=
  let otherUserId := (d.2.participants.find? (fun id => id != userId)).getD ""
  let otherUserDetails :=
    ((d.2.participantDetails.find? (fun p => p.1 == otherUserId)).map Prod.snd).getD {}
  { chatRoomId := d.1
    otherUserId := otherUserId
    otherUserName := getUserDisplayName otherUserDetails.toUserData
    otherUserPhoto := otherUserDetails.photoURL
    lastMessage := d.2.lastMessage
    lastMessageTime := d.2.lastMessageTime }

/-- The filter of chatService.ts:292-298: an entry joins the enrichment pass
iff its name is the literal placeholder and its counterpart id is truthy. -/
def needsEnrichment (c : UserChat) : Bool :=
  (c.otherUserName == "Unknown User") && (c.otherUserId != "")

/-- `data.displayName && data.displayName.trim() !== "" ? data.displayName :
undefined` (chatService.ts:321-324 and 432-435). -/
def normalizeDisplayName : Option String → Option String
  | some s => if jsTrim s ≠ "" then some s else none
  | none => none

/-- The `posts` query of chatService.ts:352-357: documents with the given
`userId`, ordered by `createdAt` descending, limited to one. -/
def latestPostOf (posts : List PostDoc) (userId : String) : Option PostDoc :=
  ((posts.filter (fun p => p.userId == userId)).mergeSort
    (fun a b => decide (b.createdAt ≤ a.createdAt))).head?

/-- The post-author fallback of chatService.ts:349-372: if the post query
rejects (`postFail`) the inner catch keeps the entry unchanged; otherwise a
truthy `userName` on the most recent post replaces the entry's name. -/
def postFallback (posts : List PostDoc) (postFail : Bool) (c : UserChat) :
    UserChat :=
  if postFail then c
  else
    match latestPostOf posts c.otherUserId with
    | some postData =>
      match jsOr postData.userName none with
      | some postAuthor => { c with otherUserName := postAuthor }
      | none => c
    | none => c

/-- The photo backfill of chatService.ts:336-338:
`if (!chats[idx].otherUserPhoto && data.photoURL)` replace the photo. -/
def applyPhotoBackfill (photoURL : Option String) (c : UserChat) : UserChat :=
  if ¬ truthy c.otherUserPhoto ∧ truthy photoURL then
    { c with otherUserPhoto := photoURL }
  else c

/-- One enrichment lookup of chatService.ts:311-380 for entry `c`:
if the profile `getDoc` rejects (`profileFail`) the outer catch leaves the
entry unchanged (the post fallback inside the same `try` is skipped);
otherwise the profile fields are probed with `resolvedName = displayName ||
userName || name || email || null`, the photo is backfilled, and on an
unresolved name (also when the profile document does not exist) the post
fallback runs. -/
def enrichOne (users : List (String × ProfileDoc)) (posts : List PostDoc)
    (profileFail postFail : Bool) (c : UserChat) : UserChat :=
  if profileFail then c
  else
    match users.find? (fun p => p.1 == c.otherUserId) with
    | some userSnap =>
      match jsOr (normalizeDisplayName userSnap.2.displayName)
          (jsOr userSnap.2.userName
            (jsOr userSnap.2.name (jsOr userSnap.2.email none))) with
      | some n =>
        applyPhotoBackfill userSnap.2.photoURL { c with otherUserName := n }
      | none =>
        postFallback posts postFail (applyPhotoBackfill userSnap.2.photoURL c)
    | none => postFallback posts postFail c

/-- The enrichment task for one element of `unknowns` (an `(idx, chat)` pair):
the body of the async closure passed to `Promise.all`, consulting the failure
oracles at the pair's own counterpart id. -/
def enrichPair (users : List (String × ProfileDoc)) (posts : List PostDoc)
    (profileFails postFails : String → Bool) (ic : Nat × UserChat) : UserChat :=
  enrichOne users posts (profileFails ic.2.otherUserId)
    (postFails ic.2.otherUserId) ic.2

/-- The fan-out/fan-in of chatService.ts:310-382: every entry of `unknowns`
(the enumerated entries passing `needsEnrichment`) has `chats[idx]` replaced by
its own enrichment result. -/
def enrichmentPass (users : List (String × ProfileDoc)) (posts : List PostDoc)
    (profileFails postFails : String → Bool) (chats : List UserChat) :
    List UserChat :=
  (chats.enum.filter (fun ic => needsEnrichment ic.2)).foldl
    (fun acc ic =>
      acc.set ic.1 (enrichPair users posts profileFails postFails ic)) chats

/-- The counterpart ids the enrichment pass issues lookups for
(`unknowns.map (({c}) => c.otherUserId)`, chatService.ts:292-314). -/
def enrichmentTargets (userId : String) (docs : List (String × RoomDoc)) :
    List String :=
  (((docs.map (toUserChat userId)).enum.filter
    (fun ic => needsEnrichment ic.2)).map (fun ic => ic.2.otherUserId))

/-- The snapshot handler of `subscribeToUserChats` (chatService.ts:266-393),
returning the list of callback invocations performed for one snapshot, in
order.  With no entry to enrich the callback fires once with the sorted mapped
list; otherwise the handler waits for `Promise.all` and fires the callback
once with the enriched, re-sorted list (there is no earlier invocation). -/
def subscribeToUserChatsSnapshot (userId : String)
    (docs : List (String × RoomDoc)) (users : List (String × ProfileDoc))
    (posts : List PostDoc) (profileFails postFails : String → Bool) :
    List (List UserChat) :=
  if ((docs.map (toUserChat userId)).enum.filter
      (fun ic => needsEnrichment ic.2)).isEmpty then
    [sortChatsByTime (docs.map (toUserChat userId))]
  else
    [sortChatsByTime (enrichmentPass users posts profileFails postFails
      (docs.map (toUserChat userId)))]

/-- The profile stubs returned by `getAllUsers` (chatService.ts:404-447). -/
structure UserStub where
  uid : String
  displayName : Option String := none
  email : Option String := none
  photoURL : Option String := none
deriving DecidableEq

/-- The document-to-stub mapping of `getAllUsers` (chatService.ts:423-443). -/
def toUserStub (d : String × ProfileDoc) : UserStub :=
  { uid := d.1
    displayName := normalizeDisplayName d.2.displayName
    email := d.2.email
    photoURL := d.2.photoURL }

/-- `getAllUsers` (chatService.ts:404-447): snapshot read of the `users`
collection, mapped to stubs, with the caller filtered out. -/
def getAllUsers (users : List (String × ProfileDoc)) (currentUserId : String) :
    List UserStub :=
  (users.map toUserStub).filter (fun user => user.uid != currentUserId)

/-- The rooms of the store containing both given users among their
participants (the pair-duplication invariant is stated over this set). -/
def roomsForPair (s : Store) (a b : String) : List (String × RoomDoc) :=
  s.chatRooms.filter
    (fun d => d.2.participants.contains a && d.2.participants.contains b)

/-! ## Helper lemmas -/

theorem find?_eq_head?_filter {α : Type} (p : α → Bool) (l : List α) :
    l.find? p = (l.filter p).head? := by
  induction l with
  | nil => rfl
  | cons a t ih =>
    cases hpa : p a with
    | true => rw [List.find?_cons_of_pos _ hpa, List.filter_cons_of_pos hpa]; rfl
    | false =>
      rw [List.filter_cons_of_neg (by simp [hpa]), ← ih, List.find?_cons_of_neg]
      simp [hpa]

/-- The query-then-scan of `getOrCreateChatRoom` finds exactly the first room
containing both users. -/
theorem chatRoomQuery_eq_head? (s : Store) (a b : String) :
    ((s.chatRooms.filter (fun d => d.2.participants.contains a)).find?
      (fun d => d.2.participants.contains b)) = (roomsForPair s a b).head? := by
  rw [List.find?_filter, find?_eq_head?_filter]
  unfold roomsForPair
  congr 1
  apply List.filter_congr
  intro d _
  cases hA : d.2.participants.contains a <;>
    cases hB : d.2.participants.contains b <;> simp [hA, hB]

theorem roomsForPair_comm (s : Store) (a b : String) :
    roomsForPair s a b = roomsForPair s b a := by
  unfold roomsForPair
  apply List.filter_congr
  intro d _
  rw [Bool.and_comm]

theorem jsTrim_empty : jsTrim "" = "" := rfl

theorem getUserDisplayName_of_trim (dn : String) (em : Option String)
    (h : jsTrim dn ≠ "") :
    getUserDisplayName { displayName := some dn, email := em } = dn := by
  simp [getUserDisplayName, h]

theorem getUserDisplayName_email (dno : Option String) (em : String)
    (hd : ∀ d ∈ dno, jsTrim d = "") (he : em ≠ "") :
    getUserDisplayName { displayName := dno, email := some em } = em := by
  cases dno with
  | none => simp [getUserDisplayName, truthy, jsTrim_empty, he]
  | some d => simp [getUserDisplayName, truthy, hd d rfl, he]

theorem getUserDisplayName_unknown (dno : Option String)
    (hd : ∀ d ∈ dno, jsTrim d = "") :
    getUserDisplayName { displayName := dno, email := none } = "Unknown User" := by
  cases dno with
  | none => simp [getUserDisplayName, truthy, jsTrim_empty]
  | some d => simp [getUserDisplayName, truthy, hd d rfl]

theorem getUserDisplayName_ne_empty (u : UserData) :
    getUserDisplayName u ≠ "" := by
  unfold getUserDisplayName
  split
  · rename_i ht
    intro h
    apply ht
    rw [h]
    exact jsTrim_empty
  · split
    · rename_i ht hmail
      cases he : u.email with
      | none => rw [he] at hmail; simp [truthy] at hmail
      | some e =>
        rw [he] at hmail
        simp only [truthy, bne_iff_ne, ne_eq] at hmail
        simpa [he] using hmail
    · decide

/-! ## C2: idempotence of room creation over a store that has the room -/

/-- C2: if the store already holds exactly one room for the unordered pair
`{A, B}`, a further `getOrCreateChatRoom` call — in either argument order —
returns that room's id and leaves the store unchanged, so exactly one room for
the pair exists afterwards. -/
theorem getOrCreateChatRoom_idempotent (s : Store) (a b : String)
    (r : String × RoomDoc) (u1 u2 u1' u2' : ProfileInput)
    (fid fid' : String) (now now' : Nat)
    (h : roomsForPair s a b = [r]) :
    getOrCreateChatRoom s a b u1 u2 fid now = (r.1, s) ∧
    getOrCreateChatRoom s b a u2' u1' fid' now' = (r.1, s) ∧
    roomsForPair (getOrCreateChatRoom s a b u1 u2 fid now).2 a b = [r] := by
  have h1 : ((s.chatRooms.filter (fun d => d.2.participants.contains a)).find?
      (fun d => d.2.participants.contains b)) = some r := by
    rw [chatRoomQuery_eq_head?, h]; rfl
  have h2 : ((s.chatRooms.filter (fun d => d.2.participants.contains b)).find?
      (fun d => d.2.participants.contains a)) = some r := by
    rw [chatRoomQuery_eq_head?, ← roomsForPair_comm, h]; rfl
  refine ⟨?_, ?_, ?_⟩
  · simp only [getOrCreateChatRoom]
    rw [h1]
  · simp only [getOrCreateChatRoom]
    rw [h2]
  · simp only [getOrCreateChatRoom]
    rw [h1]
    exact h

/-- C2 witness. -/
theorem getOrCreateChatRoom_idempotent_witness :
    getOrCreateChatRoom { chatRooms := [("roomAB", { participants := ["A", "B"] })] }
        "A" "B" {} {} "fresh" 7 =
      ("roomAB", { chatRooms := [("roomAB", { participants := ["A", "B"] })] }) ∧
    getOrCreateChatRoom { chatRooms := [("roomAB", { participants := ["A", "B"] })] }
        "B" "A" {} {} "fresh2" 9 =
      ("roomAB", { chatRooms := [("roomAB", { participants := ["A", "B"] })] }) :=
  ⟨(getOrCreateChatRoom_idempotent _ "A" "B"
      ("roomAB", { participants := ["A", "B"] }) {} {} {} {} "fresh" "fresh2" 7 9
      (by decide)).1,
   (getOrCreateChatRoom_idempotent _ "A" "B"
      ("roomAB", { participants := ["A", "B"] }) {} {} {} {} "fresh" "fresh2" 7 9
      (by decide)).2.1⟩

/-! ## C5: room creation and the display-name fallback chain -/

/-- C5: when no room for the pair exists, `getOrCreateChatRoom` appends exactly
one room with `participants = [A, B]`, `lastMessage = ""`,
`lastMessageTime = null` and the denormalized details; the stored display name
follows the chain non-empty-trimmed `displayName` → non-empty `email` →
`"Unknown User"`, in particular `{displayName: "", email: "a@x.com"}` stores
`"a@x.com"`, and a resolved name is never the empty string. -/
theorem getOrCreateChatRoom_creates (s : Store) (a b : String)
    (u1 u2 : ProfileInput) (fid : String) (now : Nat)
    (h : roomsForPair s a b = []) :
    ((getOrCreateChatRoom s a b u1 u2 fid now).1 = fid ∧
     (getOrCreateChatRoom s a b u1 u2 fid now).2.chatRooms =
       s.chatRooms ++ [(fid,
         { participants := [a, b]
           createdAt := some now
           lastMessage := ""
           lastMessageTime := none
           participantDetails :=
             [(a, { displayName := some (getUserDisplayName u1.toUserData)
                    email := some (jsOrEmpty u1.email)
                    photoURL := some (jsOrEmpty u1.photoURL) }),
              (b, { displayName := some (getUserDisplayName u2.toUserData)
                    email := some (jsOrEmpty u2.email)
                    photoURL := some (jsOrEmpty u2.photoURL) })] })]) ∧
    (∀ (dn : String) (em : Option String), jsTrim dn ≠ "" →
       getUserDisplayName { displayName := some dn, email := em } = dn) ∧
    (∀ (dno : Option String) (em : String),
       (∀ d ∈ dno, jsTrim d = "") → em ≠ "" →
       getUserDisplayName { displayName := dno, email := some em } = em) ∧
    (∀ dno : Option String, (∀ d ∈ dno, jsTrim d = "") →
       getUserDisplayName { displayName := dno, email := none } = "Unknown User") ∧
    getUserDisplayName { displayName := some "", email := some "a@x.com" } =
      "a@x.com" ∧
    (∀ u : UserData, getUserDisplayName u ≠ "") := by
  have hq : ((s.chatRooms.filter (fun d => d.2.participants.contains a)).find?
      (fun d => d.2.participants.contains b)) = none := by
    rw [chatRoomQuery_eq_head?, h]; rfl
  refine ⟨⟨?_, ?_⟩, getUserDisplayName_of_trim, getUserDisplayName_email,
    getUserDisplayName_unknown, ?_, getUserDisplayName_ne_empty⟩
  · simp only [getOrCreateChatRoom]
    rw [hq]
  · simp only [getOrCreateChatRoom]
    rw [hq]
  · decide

/-- C5 witness. -/
theorem getOrCreateChatRoom_creates_witness :
    (getOrCreateChatRoom {} "A" "B"
        { displayName := some "", email := some "a@x.com" } {} "fresh" 3).1 =
      "fresh" ∧
    getUserDisplayName { displayName := some "Bob", email := some "b@x.com" } =
      "Bob" :=
  ⟨(getOrCreateChatRoom_creates {} "A" "B"
      { displayName := some "", email := some "a@x.com" } {} "fresh" 3
      (by decide)).1.1,
   (getOrCreateChatRoom_creates {} "A" "B"
      { displayName := some "", email := some "a@x.com" } {} "fresh" 3
      (by decide)).2.1 "Bob" (some "b@x.com") (by decide)⟩

/-! ## C6: frame conditions of sendMessage -/

/-- C6: `sendMessage` appends exactly one message document with the given
text, user and room id, updates only the owning room's `lastMessage` and
`lastMessageTime` (participants, `createdAt` and `participantDetails`
unchanged), leaves every other room untouched, and succeeds. -/
theorem sendMessage_frame (s : Store) (roomId text : String) (user : MsgUser)
    (fid : String) (now : Nat) (rd : RoomDoc)
    (hmem : (roomId, rd) ∈ s.chatRooms) :
    (sendMessage s roomId text user fid now).2 = .ok () ∧
    (sendMessage s roomId text user fid now).1.messages =
      s.messages ++ [(fid, { text := text, createdAt := some now,
                             user := user, chatRoomId := roomId })] ∧
    (sendMessage s roomId text user fid now).1.chatRooms.length =
      s.chatRooms.length ∧
    (∀ rm ∈ s.chatRooms, rm.1 ≠ roomId →
       rm ∈ (sendMessage s roomId text user fid now).1.chatRooms) ∧
    (∀ rm ∈ (sendMessage s roomId text user fid now).1.chatRooms,
       rm.1 = roomId → ∃ rd0 : RoomDoc, (roomId, rd0) ∈ s.chatRooms ∧
         rm.2.participants = rd0.participants ∧
         rm.2.createdAt = rd0.createdAt ∧
         rm.2.participantDetails = rd0.participantDetails ∧
         rm.2.lastMessage = text ∧
         rm.2.lastMessageTime = some now) := by
  have hany : s.chatRooms.any (fun r => r.1 == roomId) = true :=
    List.any_eq_true.mpr ⟨(roomId, rd), hmem, by simp⟩
  refine ⟨?_, ?_, ?_, ?_, ?_⟩
  · simp [sendMessage, hany]
  · simp [sendMessage, hany]
  · simp [sendMessage, hany]
  · intro rm hrm hne
    simp only [sendMessage, hany, if_true]
    simp only [List.mem_map]
    exact ⟨rm, hrm, by simp [hne]⟩
  · intro rm hrm hid
    simp only [sendMessage, hany, if_true, List.mem_map] at hrm
    obtain ⟨orig, ho, heq⟩ := hrm
    by_cases hc : orig.1 = roomId
    · rw [if_pos hc] at heq
      refine ⟨orig.2, ?_, ?_, ?_, ?_, ?_, ?_⟩
      · rw [← hc]; exact ho
      all_goals rw [← heq]
    · rw [if_neg hc] at heq
      rw [← heq] at hid
      exact absurd hid hc

/-- C6 witness. -/
theorem sendMessage_frame_witness :
    (sendMessage { chatRooms := [("r1", { participants := ["A", "B"] })] }
        "r1" "hello" { uid := "A" } "m1" 11).2 = .ok () ∧
    (sendMessage { chatRooms := [("r1", { participants := ["A", "B"] })] }
        "r1" "hello" { uid := "A" } "m1" 11).1.messages =
      [("m1", { text := "hello", createdAt := some 11,
                user := { uid := "A" }, chatRoomId := "r1" })] :=
  ⟨(sendMessage_frame _ "r1" "hello" { uid := "A" } "m1" 11
      { participants := ["A", "B"] } (by decide)).1,
   (sendMessage_frame _ "r1" "hello" { uid := "A" } "m1" 11
      { participants := ["A", "B"] } (by decide)).2.1⟩

/-! ## C8: getAllUsers -/

/-- C8: `getAllUsers` returns exactly the stubs of the profiles whose id
differs from the caller's (in store order), and a returned stub's
`displayName` is either absent or has non-whitespace content — never the empty
or whitespace-only string. -/
theorem getAllUsers_excludes_caller (users : List (String × ProfileDoc))
    (callerId : String) :
    getAllUsers users callerId =
      (users.filter (fun d => d.1 != callerId)).map toUserStub ∧
    (getAllUsers users callerId).map (fun u => u.uid) =
      (users.filter (fun d => d.1 != callerId)).map Prod.fst ∧
    (∀ u ∈ getAllUsers users callerId,
       u.displayName = none ∨ ∃ d, u.displayName = some d ∧ jsTrim d ≠ "") := by
  have hmain : getAllUsers users callerId =
      (users.filter (fun d => d.1 != callerId)).map toUserStub := by
    unfold getAllUsers
    rw [List.filter_map]
    rfl
  refine ⟨hmain, ?_, ?_⟩
  · rw [hmain, List.map_map]
    rfl
  · intro u hu
    rw [hmain, List.mem_map] at hu
    obtain ⟨d, _, rfl⟩ := hu
    simp only [toUserStub]
    cases hdn : d.2.displayName with
    | none => exact Or.inl rfl
    | some sdn =>
      by_cases ht : jsTrim sdn = ""
      · exact Or.inl (by simp [normalizeDisplayName, ht])
      · exact Or.inr ⟨sdn, by simp [normalizeDisplayName, ht], ht⟩

/-- C8 witness. -/
theorem getAllUsers_excludes_caller_witness :
    getAllUsers [("A", { displayName := some "Ann" }),
                 ("B", { displayName := some "  " }),
                 ("C", { email := some "c@x.com" })] "A" =
      [{ uid := "B", displayName := none },
       { uid := "C", displayName := none, email := some "c@x.com" }] ∧
    (({ uid := "B", displayName := none } : UserStub).displayName = none ∨
      ∃ d, ({ uid := "B", displayName := none } : UserStub).displayName = some d ∧
        jsTrim d ≠ "") :=
  ⟨by
    rw [(getAllUsers_excludes_caller
      [("A", { displayName := some "Ann" }),
       ("B", { displayName := some "  " }),
       ("C", { email := some "c@x.com" })] "A").1]
    decide,
   (getAllUsers_excludes_caller
      [("A", { displayName := some "Ann" }),
       ("B", { displayName := some "  " }),
       ("C", { email := some "c@x.com" })] "A").2.2
      { uid := "B", displayName := none } (by decide)⟩

/-! ## C3: subscribeToMessages delivers a stable descending sort -/

theorem messageLe_trans : ∀ a b c : Message,
    messageLe a b = true → messageLe b c = true → messageLe a c = true := by
  intro a b c
  simp only [messageLe, decide_eq_true_eq]
  omega

theorem messageLe_total : ∀ a b : Message,
    (messageLe a b || messageLe b a) = true := by
  intro a b
  simp only [messageLe, Bool.or_eq_true, decide_eq_true_eq]
  omega

/-- C3: every delivered array is a permutation of the mapped snapshot
documents, sorted by `createdAt` descending, with runs of equal `createdAt`
kept in input order (stability, stated per timestamp as filter-invariance);
for two messages with `t1 < t2` the delivered array is
`[msg(t2), msg(t1)]`. -/
theorem subscribeToMessages_sorted (now : Nat)
    (docs : List (String × MessageDoc)) :
    (subscribeToMessagesSnapshot now docs).Perm (docs.map (toMessage now)) ∧
    (subscribeToMessagesSnapshot now docs).Pairwise
      (fun a b => b.createdAt ≤ a.createdAt) ∧
    (∀ t : Nat, (subscribeToMessagesSnapshot now docs).filter
        (fun m => m.createdAt == t) =
      (docs.map (toMessage now)).filter (fun m => m.createdAt == t)) ∧
    (∀ d1 d2 : String × MessageDoc,
       (toMessage now d1).createdAt < (toMessage now d2).createdAt →
       subscribeToMessagesSnapshot now [d1, d2] =
         [toMessage now d2, toMessage now d1]) := by
  refine ⟨List.mergeSort_perm _ _, ?_, ?_, ?_⟩
  · have hs := List.sorted_mergeSort messageLe_trans messageLe_total
      (docs.map (toMessage now))
    exact hs.imp (fun h => of_decide_eq_true h)
  · intro t
    have hall : ∀ x ∈ (docs.map (toMessage now)).filter
        (fun m => m.createdAt == t), (fun m : Message => m.createdAt == t) x :=
      fun x hx => (List.mem_filter.mp hx).2
    have hpw : ((docs.map (toMessage now)).filter
        (fun m => m.createdAt == t)).Pairwise
        (fun a b => messageLe a b = true) := by
      apply List.pairwise_of_forall_mem_list
      intro a ha b hb
      have hat : a.createdAt = t := by
        simpa using (List.mem_filter.mp ha).2
      have hbt : b.createdAt = t := by
        simpa using (List.mem_filter.mp hb).2
      simp only [messageLe, decide_eq_true_eq]
      omega
    have hsub : ((docs.map (toMessage now)).filter
        (fun m => m.createdAt == t)).Sublist
        (subscribeToMessagesSnapshot now docs) :=
      List.sublist_mergeSort messageLe_trans messageLe_total hpw
        (List.filter_sublist _)
    have hsub2 : ((docs.map (toMessage now)).filter
        (fun m => m.createdAt == t)).Sublist
        ((subscribeToMessagesSnapshot now docs).filter
          (fun m => m.createdAt == t)) := by
      have hf := hsub.filter (fun m => m.createdAt == t)
      rwa [List.filter_eq_self.mpr hall] at hf
    have hlen : ((subscribeToMessagesSnapshot now docs).filter
        (fun m => m.createdAt == t)).length =
        ((docs.map (toMessage now)).filter (fun m => m.createdAt == t)).length :=
      (List.Perm.filter _ (List.mergeSort_perm _ _)).length_eq
    exact (hsub2.eq_of_length hlen.symm).symm
  · intro d1 d2 hlt
    have h12 : messageLe (toMessage now d1) (toMessage now d2) = false := by
      simp only [messageLe, decide_eq_false_iff_not]
      omega
    show ([toMessage now d1, toMessage now d2].mergeSort messageLe) = _
    simp [List.mergeSort, List.cons_merge_cons, h12]

/-- C3 witness. -/
theorem subscribeToMessages_sorted_witness :
    subscribeToMessagesSnapshot 0
        [("m1", { text := "First", createdAt := some 1,
                  user := { uid := "A" }, chatRoomId := "r" }),
         ("m2", { text := "Second", createdAt := some 2,
                  user := { uid := "A" }, chatRoomId := "r" })] =
      [toMessage 0 ("m2", { text := "Second", createdAt := some 2,
                            user := { uid := "A" }, chatRoomId := "r" }),
       toMessage 0 ("m1", { text := "First", createdAt := some 1,
                            user := { uid := "A" }, chatRoomId := "r" })] :=
  (subscribeToMessages_sorted 0
      [("m1", { text := "First", createdAt := some 1,
                user := { uid := "A" }, chatRoomId := "r" }),
       ("m2", { text := "Second", createdAt := some 2,
                user := { uid := "A" }, chatRoomId := "r" })]).2.2.2
    ("m1", { text := "First", createdAt := some 1,
             user := { uid := "A" }, chatRoomId := "r" })
    ("m2", { text := "Second", createdAt := some 2,
             user := { uid := "A" }, chatRoomId := "r" })
    (by decide)

/-! ## Machinery for the enrichment pass -/

theorem chatLe_trans : ∀ a b c : UserChat,
    chatLe a b = true → chatLe b c = true → chatLe a c = true := by
  intro a b c
  obtain ⟨_, _, _, _, _, ta⟩ := a
  obtain ⟨_, _, _, _, _, tb⟩ := b
  obtain ⟨_, _, _, _, _, tc⟩ := c
  cases ta <;> cases tb <;> cases tc <;>
    simp only [chatLe, chatCompare, decide_eq_true_eq] <;> omega

theorem chatLe_total : ∀ a b : UserChat,
    (chatLe a b || chatLe b a) = true := by
  intro a b
  obtain ⟨_, _, _, _, _, ta⟩ := a
  obtain ⟨_, _, _, _, _, tb⟩ := b
  cases ta <;> cases tb <;>
    simp only [chatLe, chatCompare, Bool.or_eq_true, decide_eq_true_eq] <;> omega

theorem foldl_set_length {α : Type} (f : Nat × α → α) :
    ∀ (ps : List (Nat × α)) (acc : List α),
    (ps.foldl (fun a ic => a.set ic.1 (f ic)) acc).length = acc.length := by
  intro ps
  induction ps with
  | nil => intro acc; rfl
  | cons p rest ih =>
    intro acc
    simp only [List.foldl_cons]
    rw [ih, List.length_set]

theorem foldl_set_getElem?_of_not_mem {α : Type} (f : Nat × α → α) :
    ∀ (ps : List (Nat × α)) (acc : List α) (i : Nat),
    (∀ pc ∈ ps, pc.1 ≠ i) →
    (ps.foldl (fun a ic => a.set ic.1 (f ic)) acc)[i]? = acc[i]? := by
  intro ps
  induction ps with
  | nil => intro acc i _; rfl
  | cons p rest ih =>
    intro acc i h
    simp only [List.foldl_cons]
    rw [ih _ i (fun pc hm => h pc (List.mem_cons_of_mem _ hm)),
      List.getElem?_set_ne (h p (List.mem_cons_self _ _))]

theorem foldl_set_getElem?_of_mem {α : Type} (f : Nat × α → α) :
    ∀ (ps : List (Nat × α)) (acc : List α) (i : Nat) (c : α),
    (i, c) ∈ ps → ps.Pairwise (fun x y => x.1 ≠ y.1) → i < acc.length →
    (ps.foldl (fun a ic => a.set ic.1 (f ic)) acc)[i]? = some (f (i, c)) := by
  intro ps
  induction ps with
  | nil => intro acc i c hmem _ _; exact absurd hmem (List.not_mem_nil _)
  | cons p rest ih =>
    intro acc i c hmem hpw hlen
    simp only [List.foldl_cons]
    rcases List.mem_cons.mp hmem with heq | hrest
    · subst heq
      have hrest' : ∀ pc ∈ rest, pc.1 ≠ i := fun pc hpc =>
        Ne.symm ((List.pairwise_cons.mp hpw).1 pc hpc)
      rw [foldl_set_getElem?_of_not_mem f rest _ i hrest',
        List.getElem?_set_self hlen]
    · refine (?_ : _ = some (f (i, c)))
      have hlen' : i < (acc.set p.1 (f p)).length := by
        rw [List.length_set]; exact hlen
      exact ih (acc.set p.1 (f p)) i c hrest (List.pairwise_cons.mp hpw).2 hlen'

theorem enum_pairwise_fst_ne {α : Type} (l : List α) :
    l.enum.Pairwise (fun x y : Nat × α => x.1 ≠ y.1) := by
  rw [List.pairwise_iff_getElem]
  intro i j hi hj hij
  rw [List.getElem_enum, List.getElem_enum]
  simp only [ne_eq]
  omega

theorem enum_mem_of_getElem {α : Type} (l : List α) (i : Nat)
    (h : i < l.length) : (i, l[i]) ∈ l.enum := by
  rw [List.mem_iff_getElem?]
  exact ⟨i, by rw [List.getElem?_enum, List.getElem?_eq_getElem h]; rfl⟩

/-- The `Promise.all` fan-out over `unknowns` is an element-wise update:
each entry of the snapshot list is replaced by its own enrichment result iff
it passed the `needsEnrichment` filter, independently of the other entries. -/
theorem enrichmentPass_eq_map (users : List (String × ProfileDoc))
    (posts : List PostDoc) (profileFails postFails : String → Bool)
    (chats : List UserChat) :
    enrichmentPass users posts profileFails postFails chats =
      chats.map (fun c => if needsEnrichment c then
        enrichOne users posts (profileFails c.otherUserId)
          (postFails c.otherUserId) c
        else c) := by
  apply List.ext_getElem?
  intro n
  unfold enrichmentPass
  have hpw : (chats.enum.filter (fun ic => needsEnrichment ic.2)).Pairwise
      (fun x y => x.1 ≠ y.1) :=
    (enum_pairwise_fst_ne chats).sublist (List.filter_sublist _)
  by_cases hn : n < chats.length
  · by_cases hp : needsEnrichment chats[n]
    · have hmem : (n, chats[n]) ∈ chats.enum.filter
          (fun ic => needsEnrichment ic.2) :=
        List.mem_filter.mpr ⟨enum_mem_of_getElem chats n hn, hp⟩
      rw [foldl_set_getElem?_of_mem
          (enrichPair users posts profileFails postFails) _ _ _ _ hmem hpw hn,
        List.getElem?_map, List.getElem?_eq_getElem hn]
      simp [enrichPair, hp]
    · have hnone : ∀ pc ∈ chats.enum.filter (fun ic => needsEnrichment ic.2),
          pc.1 ≠ n := by
        intro pc hpc hcon
        have h1 := List.mem_filter.mp hpc
        have h2 := List.mem_enum h1.1
        apply hp
        subst hcon
        rw [← h2.2]
        exact h1.2
      rw [foldl_set_getElem?_of_not_mem _ _ _ _ hnone, List.getElem?_map,
        List.getElem?_eq_getElem hn]
      simp [hp]
  · have h1 : chats.length ≤ n := Nat.le_of_not_lt hn
    rw [List.getElem?_eq_none (by rw [foldl_set_length]; exact h1),
      List.getElem?_eq_none (by rw [List.length_map]; exact h1)]

/-- Both branches of the snapshot handler deliver the single sorted,
(possibly trivially) enriched list. -/
theorem subscribeToUserChatsSnapshot_eq (userId : String)
    (docs : List (String × RoomDoc)) (users : List (String × ProfileDoc))
    (posts : List PostDoc) (profileFails postFails : String → Bool) :
    subscribeToUserChatsSnapshot userId docs users posts profileFails postFails =
      [sortChatsByTime (enrichmentPass users posts profileFails postFails
        (docs.map (toUserChat userId)))] := by
  unfold subscribeToUserChatsSnapshot
  by_cases h : ((docs.map (toUserChat userId)).enum.filter
      (fun ic => needsEnrichment ic.2)).isEmpty
  · rw [if_pos h]
    unfold enrichmentPass
    rw [List.isEmpty_iff.mp h]
    rfl
  · rw [if_neg h]

theorem jsOr_ne_empty (a b : Option String) (n : String)
    (hb : ∀ m, b = some m → m ≠ "") (h : jsOr a b = some n) : n ≠ "" := by
  cases a with
  | none => simp only [jsOr] at h; exact hb n h
  | some s =>
    simp only [jsOr] at h
    by_cases hs : s = ""
    · rw [if_neg (fun hc => hc hs)] at h
      exact hb n h
    · rw [if_pos hs] at h
      rw [← Option.some.inj h]
      exact hs

theorem resolvedName_ne_empty (d : ProfileDoc) (n : String)
    (h : jsOr (normalizeDisplayName d.displayName)
      (jsOr d.userName (jsOr d.name (jsOr d.email none))) = some n) :
    n ≠ "" := by
  refine jsOr_ne_empty _ _ n (fun m hm => ?_) h
  refine jsOr_ne_empty _ _ m (fun m2 hm2 => ?_) hm
  refine jsOr_ne_empty _ _ m2 (fun m3 hm3 => ?_) hm2
  refine jsOr_ne_empty _ _ m3 (fun m4 hm4 => ?_) hm3
  exact absurd hm4 (by simp)

theorem applyPhotoBackfill_name (photoURL : Option String) (c : UserChat) :
    (applyPhotoBackfill photoURL c).otherUserName = c.otherUserName := by
  unfold applyPhotoBackfill
  split <;> rfl

theorem postFallback_name_ne_empty (posts : List PostDoc) (qfb : Bool)
    (c : UserChat) (hc : c.otherUserName ≠ "") :
    (postFallback posts qfb c).otherUserName ≠ "" := by
  unfold postFallback
  cases qfb with
  | true => simpa using hc
  | false =>
    cases hl : latestPostOf posts c.otherUserId with
    | none => simpa [hl] using hc
    | some postData =>
      cases hj : jsOr postData.userName none with
      | none => simpa [hl, hj] using hc
      | some postAuthor =>
        simpa [hl, hj] using
          jsOr_ne_empty _ _ _ (fun m hm => absurd hm (by simp)) hj

theorem enrichOne_name_ne_empty (users : List (String × ProfileDoc))
    (posts : List PostDoc) (pfb qfb : Bool) (c : UserChat)
    (hc : c.otherUserName ≠ "") :
    (enrichOne users posts pfb qfb c).otherUserName ≠ "" := by
  unfold enrichOne
  cases pfb with
  | true => simpa using hc
  | false =>
    cases hf : users.find? (fun p => p.1 == c.otherUserId) with
    | none => simpa [hf] using postFallback_name_ne_empty posts qfb c hc
    | some userSnap =>
      cases hr : jsOr (normalizeDisplayName userSnap.2.displayName)
          (jsOr userSnap.2.userName
            (jsOr userSnap.2.name (jsOr userSnap.2.email none))) with
      | some n =>
        have hn : n ≠ "" := resolvedName_ne_empty userSnap.2 n hr
        simpa [hf, hr, applyPhotoBackfill_name] using hn
      | none =>
        have hbf : (applyPhotoBackfill userSnap.2.photoURL c).otherUserName ≠ "" := by
          rw [applyPhotoBackfill_name]; exact hc
        simpa [hf, hr] using postFallback_name_ne_empty posts qfb _ hbf

/-! ## C1 (corrected): a snapshot needing enrichment fires the callback once -/

/-- Concrete scenario of spec §8 scenario 5: counterpart with denormalized
`displayName = ""` and a profile document carrying `displayName = "Alice"`. -/
def aliceRoom : String × RoomDoc :=
  ("room1",
   { participants := ["userA", "userB"]
     lastMessage := "hi"
     lastMessageTime := some 5
     participantDetails :=
       [("userB",
         { displayName := some "", email := some "", photoURL := some "" })] })

/-- The `users` collection for the scenario: the counterpart's profile. -/
def aliceUsers : List (String × ProfileDoc) :=
  [("userB", { displayName := some "Alice" })]

/-- The entry the scenario's snapshot delivers after enrichment. -/
def aliceChat : UserChat :=
  { chatRoomId := "room1"
    otherUserId := "userB"
    otherUserName := "Alice"
    otherUserPhoto := some ""
    lastMessage := "hi"
    lastMessageTime := some 5 }

/-- A room whose counterpart's denormalized name is already usable. -/
def veraRoom : String × RoomDoc :=
  ("r",
   { participants := ["u", "v"]
     participantDetails := [("v", { displayName := some "Vera" })] })

/-- C1 counterexample: in the scenario of the claim — an entry whose name
resolves to the placeholder — the handler performs exactly ONE callback
invocation, whose list already shows `"Alice"`; there is no initial invocation
with the possibly-stale placeholder, so "the callback is invoked twice" fails
on the code. -/
theorem subscribeToUserChats_double_callback_counterexample :
    needsEnrichment (toUserChat "userA" aliceRoom) = true ∧
    subscribeToUserChatsSnapshot "userA" [aliceRoom] aliceUsers []
        (fun _ => false) (fun _ => false) = [[aliceChat]] ∧
    (subscribeToUserChatsSnapshot "userA" [aliceRoom] aliceUsers []
        (fun _ => false) (fun _ => false)).length = 1 := by
  refine ⟨by decide, ?_, ?_⟩
  · rw [subscribeToUserChatsSnapshot_eq]
    have h1 : enrichmentPass aliceUsers [] (fun _ => false) (fun _ => false)
        ([aliceRoom].map (toUserChat "userA")) = [aliceChat] := by decide
    rw [h1]
    simp [sortChatsByTime]
  · rw [subscribeToUserChatsSnapshot_eq]
    rfl

/-- C1 (amended): on each snapshot the callback is invoked exactly once — with
the sorted mapped list when no entry needs enrichment, and only after the
enrichment pass settles (with the enriched, re-sorted list) when some entry
does; there is no initial possibly-stale invocation in the enrichment case. -/
theorem subscribeToUserChats_single_callback (userId : String)
    (docs : List (String × RoomDoc)) (users : List (String × ProfileDoc))
    (posts : List PostDoc) (profileFails postFails : String → Bool) :
    (subscribeToUserChatsSnapshot userId docs users posts profileFails
      postFails).length = 1 ∧
    subscribeToUserChatsSnapshot userId docs users posts profileFails postFails =
      [sortChatsByTime (enrichmentPass users posts profileFails postFails
        (docs.map (toUserChat userId)))] ∧
    ((∀ c ∈ docs.map (toUserChat userId), needsEnrichment c = false) →
      subscribeToUserChatsSnapshot userId docs users posts profileFails
          postFails =
        [sortChatsByTime (docs.map (toUserChat userId))]) := by
  refine ⟨?_, subscribeToUserChatsSnapshot_eq _ _ _ _ _ _, ?_⟩
  · rw [subscribeToUserChatsSnapshot_eq]
    rfl
  · intro hall
    unfold subscribeToUserChatsSnapshot
    rw [if_pos]
    rw [List.isEmpty_iff]
    rw [List.filter_eq_nil_iff]
    intro ic hic
    have h2 := List.mem_enum hic
    have h3 : ic.2 ∈ docs.map (toUserChat userId) := by
      rw [h2.2]
      exact List.getElem_mem h2.1
    simp [hall ic.2 h3]

/-- C1 witness (for the amended claim's no-enrichment branch). -/
theorem subscribeToUserChats_single_callback_witness :
    subscribeToUserChatsSnapshot "u" [veraRoom] [] []
        (fun _ => false) (fun _ => false) =
      [sortChatsByTime ([veraRoom].map (toUserChat "u"))] :=
  (subscribeToUserChats_single_callback "u" [veraRoom] [] []
      (fun _ => false) (fun _ => false)).2.2 (by decide)

/-! ## C4: every delivered chat list is sorted, missing timestamps last -/

/-- "Comes no later than" on delivered entries: both of the claim's clauses —
newer `lastMessageTime` first, entries lacking a timestamp after every entry
that has one. -/
def chatAfter (a b : UserChat) : Prop :=
  match a.lastMessageTime, b.lastMessageTime with
  | some x, some y => y ≤ x
  | _, none => True
  | none, some _ => False

theorem chatAfter_of_chatLe (a b : UserChat) (h : chatLe a b = true) :
    chatAfter a b := by
  have h' := of_decide_eq_true h
  unfold chatAfter
  unfold chatCompare at h'
  rcases ha : a.lastMessageTime with _ | x <;>
    rcases hb : b.lastMessageTime with _ | y <;> rw [ha, hb] at h' <;>
    simp_all

/-- C4: every array the handler passes to the callback is sorted by
`lastMessageTime` descending with timestamp-less entries after all timestamped
ones. -/
theorem subscribeToUserChats_sorted (userId : String)
    (docs : List (String × RoomDoc)) (users : List (String × ProfileDoc))
    (posts : List PostDoc) (profileFails postFails : String → Bool) :
    ∀ l ∈ subscribeToUserChatsSnapshot userId docs users posts profileFails
      postFails, l.Pairwise chatAfter := by
  intro l hl
  rw [subscribeToUserChatsSnapshot_eq, List.mem_singleton] at hl
  subst hl
  have hs := List.sorted_mergeSort chatLe_trans chatLe_total
    (enrichmentPass users posts profileFails postFails
      (docs.map (toUserChat userId)))
  exact hs.imp (fun h => chatAfter_of_chatLe _ _ h)

/-- Two timestamped rooms used by the sortedness witness. -/
def roomOne : String × RoomDoc :=
  ("r1",
   { participants := ["u", "v"]
     lastMessageTime := some 1
     participantDetails := [("v", { displayName := some "V" })] })

/-- Second timestamped room used by the sortedness witness. -/
def roomTwo : String × RoomDoc :=
  ("r2",
   { participants := ["u", "w"]
     lastMessageTime := some 5
     participantDetails := [("w", { displayName := some "W" })] })

/-- C4 witness. -/
theorem subscribeToUserChats_sorted_witness :
    (sortChatsByTime (enrichmentPass [] [] (fun _ => false) (fun _ => false)
      ([roomOne, roomTwo].map (toUserChat "u")))).Pairwise chatAfter :=
  subscribeToUserChats_sorted "u" [roomOne, roomTwo] [] []
    (fun _ => false) (fun _ => false) _
    (by rw [subscribeToUserChatsSnapshot_eq]; exact List.mem_singleton.mpr rfl)

/-! ## C7: per-item isolation of enrichment failures -/

/-- C7: a failing lookup is caught and never surfaces — the handler always
performs its single final callback; the fan-out is an element-wise update in
which each entry consults only its own failure flags, so one entry's failure
cannot affect its siblings; and an entry whose profile lookup fails is left
unchanged (it degrades to the name it already had, i.e. the placeholder). -/
theorem enrichment_failures_isolated (userId : String)
    (docs : List (String × RoomDoc)) (users : List (String × ProfileDoc))
    (posts : List PostDoc) (profileFails postFails : String → Bool) :
    (subscribeToUserChatsSnapshot userId docs users posts profileFails
      postFails).length = 1 ∧
    enrichmentPass users posts profileFails postFails
        (docs.map (toUserChat userId)) =
      (docs.map (toUserChat userId)).map (fun c => if needsEnrichment c then
        enrichOne users posts (profileFails c.otherUserId)
          (postFails c.otherUserId) c
        else c) ∧
    (∀ c : UserChat, profileFails c.otherUserId = true →
       enrichOne users posts (profileFails c.otherUserId)
         (postFails c.otherUserId) c = c) := by
  refine ⟨?_, enrichmentPass_eq_map _ _ _ _ _, ?_⟩
  · rw [subscribeToUserChatsSnapshot_eq]
    rfl
  · intro c hc
    rw [hc]
    rfl

/-- C7 witness. -/
theorem enrichment_failures_isolated_witness :
    (subscribeToUserChatsSnapshot "u" [] [] [] (fun _ => true)
      (fun _ => false)).length = 1 ∧
    enrichOne [] [] true false
        { chatRoomId := "r", otherUserId := "x",
          otherUserName := "Unknown User" } =
      { chatRoomId := "r", otherUserId := "x",
        otherUserName := "Unknown User" } :=
  ⟨(enrichment_failures_isolated "u" [] [] [] (fun _ => true)
      (fun _ => false)).1,
   (enrichment_failures_isolated "u" [] [] [] (fun _ => true)
      (fun _ => false)).2.2
     { chatRoomId := "r", otherUserId := "x",
       otherUserName := "Unknown User" } rfl⟩

/-! ## C9: delivered names are never empty -/

/-- C9: every entry of every delivered list has a non-empty `otherUserName`;
in particular denormalized details with a whitespace-only `displayName` and an
empty-string `email` resolve to the placeholder, not to `""`. -/
theorem otherUserName_never_empty (userId : String)
    (docs : List (String × RoomDoc)) (users : List (String × ProfileDoc))
    (posts : List PostDoc) (profileFails postFails : String → Bool) :
    (∀ l ∈ subscribeToUserChatsSnapshot userId docs users posts profileFails
       postFails, ∀ c ∈ l, c.otherUserName ≠ "") ∧
    (∀ (w : String) (ph : Option String), jsTrim w = "" →
       getUserDisplayName (PartDetails.toUserData
         { displayName := some w, email := some "", photoURL := ph }) =
       "Unknown User") := by
  constructor
  · intro l hl c hc
    rw [subscribeToUserChatsSnapshot_eq, List.mem_singleton] at hl
    subst hl
    have hc' : c ∈ enrichmentPass users posts profileFails postFails
        (docs.map (toUserChat userId)) := List.mem_mergeSort.mp hc
    rw [enrichmentPass_eq_map, List.mem_map] at hc'
    obtain ⟨c0, hc0, rfl⟩ := hc'
    rw [List.mem_map] at hc0
    obtain ⟨d, _, rfl⟩ := hc0
    have hbase : (toUserChat userId d).otherUserName ≠ "" :=
      getUserDisplayName_ne_empty _
    by_cases hne : needsEnrichment (toUserChat userId d)
    · rw [if_pos hne]
      exact enrichOne_name_ne_empty _ _ _ _ _ hbase
    · rw [if_neg hne]
      exact hbase
  · intro w ph hw
    simp [PartDetails.toUserData, getUserDisplayName, truthy, hw]

/-- C9 witness. -/
theorem otherUserName_never_empty_witness :
    (toUserChat "u" veraRoom).otherUserName ≠ "" ∧
    getUserDisplayName (PartDetails.toUserData
      { displayName := some " ", email := some "", photoURL := none }) =
      "Unknown User" :=
  ⟨(otherUserName_never_empty "u" [veraRoom] [] []
      (fun _ => false) (fun _ => false)).1
     (sortChatsByTime (enrichmentPass [] [] (fun _ => false) (fun _ => false)
       ([veraRoom].map (toUserChat "u"))))
     (by rw [subscribeToUserChatsSnapshot_eq]; exact List.mem_singleton.mpr rfl)
     _ (List.mem_mergeSort.mpr (by decide)),
   (otherUserName_never_empty "u" [] [] [] (fun _ => false)
      (fun _ => false)).2 " " none (by decide)⟩

/-! ## C10: rooms without a counterpart never cause a lookup -/

/-- C10: a room whose participants hold no id differing from the viewer's maps
to `otherUserId = ""`, is excluded from the enrichment pass (its entry stays
exactly the mapped one in the single delivered list), and no enrichment lookup
is ever issued for an empty counterpart id. -/
theorem no_lookup_for_empty_counterpart (userId : String)
    (docs : List (String × RoomDoc)) (users : List (String × ProfileDoc))
    (posts : List PostDoc) (profileFails postFails : String → Bool)
    (d : String × RoomDoc) (hd : d ∈ docs)
    (hnone : d.2.participants.find? (fun id => id != userId) = none) :
    (toUserChat userId d).otherUserId = "" ∧
    needsEnrichment (toUserChat userId d) = false ∧
    (∀ t ∈ enrichmentTargets userId docs, t ≠ "") ∧
    (∃ l, subscribeToUserChatsSnapshot userId docs users posts profileFails
        postFails = [l] ∧ toUserChat userId d ∈ l) := by
  have h1 : (toUserChat userId d).otherUserId = "" := by
    simp [toUserChat, hnone]
  have h2 : needsEnrichment (toUserChat userId d) = false := by
    unfold needsEnrichment
    rw [h1]
    simp
  refine ⟨h1, h2, ?_, ?_⟩
  · intro t ht
    unfold enrichmentTargets at ht
    rw [List.mem_map] at ht
    obtain ⟨ic, hic, rfl⟩ := ht
    have h3 := (List.mem_filter.mp hic).2
    unfold needsEnrichment at h3
    rw [Bool.and_eq_true] at h3
    exact bne_iff_ne.mp h3.2
  · refine ⟨_, subscribeToUserChatsSnapshot_eq _ _ _ _ _ _, ?_⟩
    apply List.mem_mergeSort.mpr
    rw [enrichmentPass_eq_map, List.mem_map]
    exact ⟨toUserChat userId d, List.mem_map_of_mem _ hd, by rw [h2]; rfl⟩

/-- C10 witness. -/
theorem no_lookup_for_empty_counterpart_witness :
    (toUserChat "me" ("solo", { participants := ["me"] })).otherUserId = "" ∧
    needsEnrichment (toUserChat "me" ("solo", { participants := ["me"] })) =
      false :=
  ⟨(no_lookup_for_empty_counterpart "me" [("solo", { participants := ["me"] })]
      [] [] (fun _ => false) (fun _ => false)
      ("solo", { participants := ["me"] }) (by decide) (by decide)).1,
   (no_lookup_for_empty_counterpart "me" [("solo", { participants := ["me"] })]
      [] [] (fun _ => false) (fun _ => false)
      ("solo", { participants := ["me"] }) (by decide) (by decide)).2.1⟩

end ConnectUs
